import Mathlib

/-!
Verification development for the WatchGuard change-detection pipeline
(`services/watchguard/watchguard/`): normalizer, differ, snapshot storage,
runner and scheduler, shallowly embedded in Lean.

Strings are modelled as `List Char`.  Python `float` similarity values are
modelled as exact rationals (`ℚ`); Python machine floats round these values,
which does not affect any of the comparisons appearing below.
-/

namespace WG

/-- Strings of the embedded program (Python `str`), as lists of characters. -/
abbrev Str := List Char

/-- The code point of a character, as a `Nat`. -/
def cv (c : Char) : Nat := c.val.toNat

/-- Python whitespace as recognised by `\s` in `re` patterns on `str`, by
`str.strip()` and by `str.split()`: ASCII whitespace (space, `\t`, `\n`, `\v`,
`\f`, `\r`), the information separators, NEL, NBSP and the Unicode space
characters. -/
def isWsPy (c : Char) : Bool :=
  decide (cv c = 32 ∨ cv c = 9 ∨ cv c = 10 ∨ cv c = 11 ∨ cv c = 12 ∨ cv c = 13 ∨
    (28 ≤ cv c ∧ cv c ≤ 31) ∨ cv c = 133 ∨ cv c = 160 ∨ cv c = 0x1680 ∨
    (0x2000 ≤ cv c ∧ cv c ≤ 0x200a) ∨ cv c = 0x2028 ∨ cv c = 0x2029 ∨
    cv c = 0x202f ∨ cv c = 0x205f ∨ cv c = 0x3000)

/-- ASCII decimal digit (Python `\d` restricted to the Basic Latin block). -/
def isDigitA (c : Char) : Bool := decide (48 ≤ cv c ∧ cv c ≤ 57)

/-- Python `str.lower()` / `re.IGNORECASE` case mapping, modelled on the
Basic Latin and Latin-1 blocks (the alphabets the noise patterns use):
`A`–`Z` and `À`–`Þ` (except `×`) map down by 32, everything else is fixed. -/
def pyLower (c : Char) : Char :=
  if 65 ≤ cv c ∧ cv c ≤ 90 then Char.ofNat (cv c + 32)
  else if 0xC0 ≤ cv c ∧ cv c ≤ 0xDE ∧ cv c ≠ 0xD7 then Char.ofNat (cv c + 32)
  else c

/-- Python `\w` (word character), modelled on Basic Latin and Latin-1:
ASCII letters and digits, underscore, and the Latin-1 letters. -/
def isWordPy (c : Char) : Bool :=
  decide ((97 ≤ cv c ∧ cv c ≤ 122) ∨ (65 ≤ cv c ∧ cv c ≤ 90) ∨
    (48 ≤ cv c ∧ cv c ≤ 57) ∨ cv c = 95 ∨
    (0xC0 ≤ cv c ∧ cv c ≤ 0xFF ∧ cv c ≠ 0xD7 ∧ cv c ≠ 0xF7) ∨
    cv c = 0xAA ∨ cv c = 0xB5 ∨ cv c = 0xBA)

/-- `str.lower()` on a whole string (step 5 of `normalize`). -/
def lowerStr (s : Str) : Str := s.map pyLower

/-- `str.strip()`: drop Python whitespace from both ends. -/
def stripWs (s : Str) : Str :=
  ((s.dropWhile isWsPy).reverse.dropWhile isWsPy).reverse

/-- Count of non-whitespace characters of a string (the spec's reading of
`added_chars`: "count of non-whitespace characters newly present"). -/
def nonWsCount (s : Str) : Nat := (s.filter (fun c => !isWsPy c)).length

/-! ### A backtracking regular-expression engine

Faithful to the CPython `re` semantics used by `normalize`: leftmost match,
greedy quantifiers explored longest-first by backtracking, `re.IGNORECASE`.
All quantified subpatterns appearing in the noise patterns consume at least
one character, so the fuel given to `starL` below is never exhausted. -/

/-- Regular expressions: empty word, single-character class, concatenation,
alternation (preferring the left branch, as CPython does), and greedy star. -/
inductive RE where
  | eps : RE
  | cls : (Char → Bool) → RE
  | seq : RE → RE → RE
  | alt : RE → RE → RE
  | star : RE → RE

/-- Greedy star loop: try one more repetition of the body (longest first),
fall back to stopping here.  A repetition must consume at least one character
(CPython likewise refuses empty loop iterations).  `m` is the matcher of the
body, `k` the continuation, and the `Nat` fuel bounds the repetition count. -/
def starL : Nat → (Str → (Str → Option Nat) → Option Nat) → Str →
    (Str → Option Nat) → Option Nat
  | 0, _, s, k => k s
  | n + 1, m, s, k =>
      (m s (fun s1 => if s1.length < s.length then starL n m s1 k else none)).orElse
        (fun _ => k s)

/-- Backtracking matcher in continuation-passing style.  `mtch r s k` tries
prefixes of `s` matching `r` in CPython preference order and passes the
remaining suffix to `k`; the first success wins. -/
def mtch : RE → Str → (Str → Option Nat) → Option Nat
  | .eps, s, k => k s
  | .cls p, s, k =>
      match s with
      | [] => none
      | c :: s1 => if p c then k s1 else none
  | .seq r1 r2, s, k => mtch r1 s (fun s1 => mtch r2 s1 k)
  | .alt r1 r2, s, k => (mtch r1 s k).orElse (fun _ => mtch r2 s k)
  | .star r, s, k => starL (s.length + 1) (mtch r) s k

/-- Length of the (backtracking-first, i.e. CPython's) match of `r` at the
start of `s`, or `none`. -/
def matchLenAt (r : RE) (s : Str) : Option Nat :=
  (mtch r s (fun rest => some rest.length)).map (fun rest => s.length - rest)

/-- `re.sub(pattern, rep, s)` scanning: at each position take the leftmost
match (if of positive length), emit the replacement character and resume after
the match; otherwise copy one character.  Structured on explicit fuel; the
initial fuel `s.length` is always sufficient. -/
def subGo (rep : Char) (r : RE) : Nat → Str → Str
  | 0, s => s
  | _ + 1, [] => []
  | n + 1, c :: s =>
      match matchLenAt r (c :: s) with
      | some (l + 1) => rep :: subGo rep r n ((c :: s).drop (l + 1))
      | _ => c :: subGo rep r n s

/-- `re.sub(pattern, rep, s)` with a single-character replacement (all uses in
`normalize` replace by a single space). -/
def subAll (r : RE) (rep : Char) (s : Str) : Str := subGo rep r s.length s

/-! #### Pattern constructors -/

/-- Single literal character under `re.IGNORECASE`. -/
def ci (c : Char) : RE := RE.cls (fun x => pyLower x = pyLower c)

/-- Literal word under `re.IGNORECASE`. -/
def lit : Str → RE
  | [] => RE.eps
  | c :: s => RE.seq (ci c) (lit s)

/-- `r?` (greedy option). -/
def opt (r : RE) : RE := RE.alt r RE.eps

/-- `r+` (greedy). -/
def plus (r : RE) : RE := RE.seq r (RE.star r)

/-- `r{n}`: exactly `n` repetitions. -/
def repN (r : RE) : Nat → RE
  | 0 => RE.eps
  | n + 1 => RE.seq r (repN r n)

/-- Up to `k` further greedy repetitions (`(r(r(…)?)?)?` nesting). -/
def optChain (r : RE) : Nat → RE
  | 0 => RE.eps
  | k + 1 => RE.alt (RE.seq r (optChain r k)) RE.eps

/-- `r{m,n}` (greedy counted repetition). -/
def repRange (r : RE) (m n : Nat) : RE := RE.seq (repN r m) (optChain r (n - m))

/-- Concatenation of a list of patterns. -/
def seqL : List RE → RE
  | [] => RE.eps
  | [r] => r
  | r :: rs => RE.seq r (seqL rs)

/-- `\d` -/
def dD : RE := RE.cls isDigitA
/-- `\s` -/
def dS : RE := RE.cls isWsPy
/-- `\w` -/
def dW : RE := RE.cls isWordPy
/-- `.` (any character except a newline; `re.DOTALL` is not set). -/
def dotRE : RE := RE.cls (fun c => c ≠ '\n')

/-! ### The normalizer (`normalizer.py`)

`DEFAULT_NOISE_PATTERNS`, in source order; each is applied by
`re.sub(pattern, " ", text, flags=re.IGNORECASE | re.MULTILINE)`
(`re.MULTILINE` only affects `^`/`$`, which no pattern uses). -/

/-- Pattern 1, slash dates: `\d{1,2}/\d{1,2}/\d{2,4}`. -/
def patDateSlash : RE :=
  seqL [repRange dD 1 2, ci '/', repRange dD 1 2, ci '/', repRange dD 2 4]

/-- Pattern 2, hyphen dates: `\d{1,2}-\d{1,2}-\d{2,4}`. -/
def patDateHyphen : RE :=
  seqL [repRange dD 1 2, ci '-', repRange dD 1 2, ci '-', repRange dD 2 4]

/-- Pattern 3, Spanish dates: `\d{1,2}\s+de\s+\w+\s+de\s+\d{4}`. -/
def patDateSpanish : RE :=
  seqL [repRange dD 1 2, plus dS, lit "de".toList, plus dS, plus dW,
        plus dS, lit "de".toList, plus dS, repN dD 4]

/-- Pattern 4, clock times: `\d{1,2}:\d{2}(:\d{2})?\s*(am|pm|AM|PM)?`.
Under `re.IGNORECASE` the alternation `(am|pm|AM|PM)` is plain `am|pm`. -/
def patTime : RE :=
  seqL [repRange dD 1 2, ci ':', repN dD 2,
        opt (RE.seq (ci ':') (repN dD 2)), RE.star dS,
        opt (RE.alt (lit "am".toList) (lit "pm".toList))]

/-- Pattern 5: `[Vv]isitas?:?\s*\d+`. -/
def patVisitas : RE :=
  seqL [ci 'v', lit "isita".toList, opt (ci 's'), opt (ci ':'), RE.star dS, plus dD]

/-- Pattern 6: `[Vv]istas?:?\s*\d+`. -/
def patVistas : RE :=
  seqL [ci 'v', lit "ista".toList, opt (ci 's'), opt (ci ':'), RE.star dS, plus dD]

/-- Pattern 7: `[Vv]iews?:?\s*\d+`. -/
def patViews : RE :=
  seqL [ci 'v', lit "iew".toList, opt (ci 's'), opt (ci ':'), RE.star dS, plus dD]

/-- Pattern 8: `[Úú]ltima\s+(actualización|modificación):?\s*.*`. -/
def patUltima : RE :=
  seqL [ci 'ú', lit "ltima".toList, plus dS,
        RE.alt (lit "actualización".toList) (lit "modificación".toList),
        opt (ci ':'), RE.star dS, RE.star dotRE]

/-- Pattern 9: `[Ll]ast\s+(updated?|modified):?\s*.*`. -/
def patLast : RE :=
  seqL [ci 'l', lit "ast".toList, plus dS,
        RE.alt (RE.seq (lit "update".toList) (opt (ci 'd'))) (lit "modified".toList),
        opt (ci ':'), RE.star dS, RE.star dotRE]

/-- Pattern 10: `©\s*\d{4}.*`. -/
def patCopySign : RE := seqL [ci '©', RE.star dS, repN dD 4, RE.star dotRE]

/-- Pattern 11: `[Cc]opyright\s*\d{4}.*`. -/
def patCopyWord : RE :=
  seqL [ci 'c', lit "opyright".toList, RE.star dS, repN dD 4, RE.star dotRE]

/-- Pattern 12: `[?&](sid|session|token|utm_\w+)=[^&\s]+`. -/
def patSession : RE :=
  seqL [RE.cls (fun c => c = '?' || c = '&'),
        RE.alt (RE.alt (lit "sid".toList) (lit "session".toList))
               (RE.alt (lit "token".toList) (RE.seq (lit "utm_".toList) (plus dW))),
        ci '=', plus (RE.cls (fun c => !(c = '&' || isWsPy c)))]

/-- `DEFAULT_NOISE_PATTERNS` in source order. -/
def defaultNoisePatterns : List RE :=
  [patDateSlash, patDateHyphen, patDateSpanish, patTime,
   patVisitas, patVistas, patViews, patUltima, patLast,
   patCopySign, patCopyWord, patSession]

/-- Step 2 of `normalize`: apply each noise pattern in order, replacing every
match by a single space (all patterns are valid, so the `re.error` branch
never fires). -/
def noisePass (s : Str) : Str :=
  defaultNoisePatterns.foldl (fun t r => subAll r ' ' t) s

/-- Step 3 of `normalize`: `re.sub(r'\s+', ' ', text)` — replace every maximal
run of whitespace by a single space (leftmost-greedy matching of `\s+` makes
each match a maximal whitespace run).  The flag records whether the previous
character was inside a whitespace run already emitted as one space. -/
def collapseGo : Bool → Str → Str
  | _, [] => []
  | inWs, c :: s =>
      if isWsPy c then
        if inWs then collapseGo true s else ' ' :: collapseGo true s
      else c :: collapseGo false s

/-- `re.sub(r'\s+', ' ', text)`. -/
def collapseWs (s : Str) : Str := collapseGo false s

/-- `normalize(text, site=None)` from `normalizer.py`, for a site with no
extra `ignore_patterns`.  The Unicode NFKC step (`unicodedata.normalize`,
a Python-library primitive) is a parameter `nfkc`; on ASCII text NFKC is the
identity. -/
def normalize (nfkc : Str → Str) (text : Str) : Str :=
  if text = [] then []
  else lowerStr (stripWs (collapseWs (noisePass (nfkc text))))

/-! ### SHA-256 (`hashlib.sha256(...).hexdigest()`)

FIPS 180-4, over `Nat` with explicit reduction modulo `2 ^ 32`. -/

/-- 32-bit truncation. -/
def m32 (n : Nat) : Nat := n % 4294967296

/-- Right rotation of a 32-bit word. -/
def rotr (n x : Nat) : Nat := m32 (x >>> n ||| x <<< (32 - n))

/-- Bitwise complement of a 32-bit word. -/
def not32 (x : Nat) : Nat := 4294967295 - x % 4294967296

/-- SHA-256 round constants. -/
def sha256K : List Nat :=
  [1116352408, 1899447441, 3049323471, 3921009573, 961987163,
   1508970993, 2453635748, 2870763221, 3624381080, 310598401,
   607225278, 1426881987, 1925078388, 2162078206, 2614888103,
   3248222580, 3835390401, 4022224774, 264347078, 604807628,
   770255983, 1249150122, 1555081692, 1996064986, 2554220882,
   2821834349, 2952996808, 3210313671, 3336571891, 3584528711,
   113926993, 338241895, 666307205, 773529912, 1294757372,
   1396182291, 1695183700, 1986661051, 2177026350, 2456956037,
   2730485921, 2820302411, 3259730800, 3345764771, 3516065817,
   3600352804, 4094571909, 275423344, 430227734, 506948616,
   659060556, 883997877, 958139571, 1322822218, 1537002063,
   1747873779, 1955562222, 2024104815, 2227730452, 2361852424,
   2428436474, 2756734187, 3204031479, 3329325298]

/-- SHA-256 initial hash value. -/
def sha256H0 : List Nat :=
  [1779033703, 3144134277, 1013904242, 2773480762,
   1359893119, 2600822924, 528734635, 1541459225]

/-- Pad a byte message per FIPS 180-4 (append `0x80`, zeros, 64-bit length). -/
def sha256Pad (msg : List Nat) : List Nat :=
  let len := msg.length
  let zeros := (56 + 64 - (len + 1) % 64) % 64
  let bitLen := len * 8
  msg ++ [0x80] ++ List.replicate zeros 0 ++
    [(bitLen >>> 56) % 256, (bitLen >>> 48) % 256, (bitLen >>> 40) % 256,
     (bitLen >>> 32) % 256, (bitLen >>> 24) % 256, (bitLen >>> 16) % 256,
     (bitLen >>> 8) % 256, bitLen % 256]

/-- Group a padded byte list into 32-bit big-endian words. -/
def bytesToWords : List Nat → List Nat
  | b0 :: b1 :: b2 :: b3 :: rest =>
      (b0 <<< 24 ||| b1 <<< 16 ||| b2 <<< 8 ||| b3) :: bytesToWords rest
  | _ => []

/-- The next message-schedule word, appended at index `w.length`. -/
def sha256Next (w : List Nat) : Nat :=
  let t := w.length
  let g := fun i => w.getD i 0
  let s0 := m32 (rotr 7 (g (t - 15)) ^^^ rotr 18 (g (t - 15)) ^^^ (g (t - 15)) >>> 3)
  let s1 := m32 (rotr 17 (g (t - 2)) ^^^ rotr 19 (g (t - 2)) ^^^ (g (t - 2)) >>> 10)
  m32 (g (t - 16) + s0 + g (t - 7) + s1)

/-- Extend the 16 message words of a block by `n` further schedule words. -/
def sha256Extend : Nat → List Nat → List Nat
  | 0, w => w
  | n + 1, w => sha256Extend n (w ++ [sha256Next w])

/-- One round of the SHA-256 compression function. -/
def sha256Round (st : List Nat) (kw : Nat × Nat) : List Nat :=
  match st with
  | [a, b, c, d, e, f, g, h] =>
      let s1 := rotr 6 e ^^^ rotr 11 e ^^^ rotr 25 e
      let ch := (e &&& f) ^^^ (not32 e &&& g)
      let t1 := m32 (h + s1 + ch + kw.1 + kw.2)
      let s0 := rotr 2 a ^^^ rotr 13 a ^^^ rotr 22 a
      let mj := (a &&& b) ^^^ (a &&& c) ^^^ (b &&& c)
      let t2 := m32 (s0 + mj)
      [m32 (t1 + t2), a, b, c, m32 (d + t1), e, f, g]
  | st => st

/-- Process one 16-word block, updating the running hash. -/
def sha256Block (h : List Nat) (block : List Nat) : List Nat :=
  let w := sha256Extend 48 block
  let st := (sha256K.zip w).foldl sha256Round h
  (h.zip st).map (fun p => m32 (p.1 + p.2))

/-- Fold the padded word stream, 16-word block by block; the fuel is the
number of remaining blocks. -/
def sha256Blocks : Nat → List Nat → List Nat → List Nat
  | 0, h, _ => h
  | n + 1, h, ws =>
      if ws = [] then h
      else sha256Blocks n (sha256Block h (ws.take 16)) (ws.drop 16)

/-- SHA-256 digest of a byte message, as eight 32-bit words. -/
def sha256Words (msg : List Nat) : List Nat :=
  let ws := bytesToWords (sha256Pad msg)
  sha256Blocks ws.length sha256H0 ws

/-- Lowercase hex digit. -/
def hexDigit (n : Nat) : Char :=
  if n < 10 then Char.ofNat (48 + n) else Char.ofNat (87 + n)

/-- A 32-bit word as eight lowercase hex characters. -/
def wordToHex (w : Nat) : Str :=
  [hexDigit ((w >>> 28) % 16), hexDigit ((w >>> 24) % 16),
   hexDigit ((w >>> 20) % 16), hexDigit ((w >>> 16) % 16),
   hexDigit ((w >>> 12) % 16), hexDigit ((w >>> 8) % 16),
   hexDigit ((w >>> 4) % 16), hexDigit (w % 16)]

/-- UTF-8 encoding of one character, as byte values. -/
def utf8Char (c : Char) : List Nat :=
  let n := c.val.toNat
  if n < 0x80 then [n]
  else if n < 0x800 then [0xC0 ||| n >>> 6, 0x80 ||| n &&& 0x3F]
  else if n < 0x10000 then
    [0xE0 ||| n >>> 12, 0x80 ||| (n >>> 6) &&& 0x3F, 0x80 ||| n &&& 0x3F]
  else
    [0xF0 ||| n >>> 18, 0x80 ||| (n >>> 12) &&& 0x3F,
     0x80 ||| (n >>> 6) &&& 0x3F, 0x80 ||| n &&& 0x3F]

/-- `s.encode("utf-8")`. -/
def utf8 (s : Str) : List Nat := s.flatMap utf8Char

/-- `hashlib.sha256(s.encode("utf-8")).hexdigest()`. -/
def sha256Hex (s : Str) : Str := (sha256Words (utf8 s)).flatMap wordToHex

/-- `compute_hash(text)` from `normalizer.py`. -/
def compute_hash (text : Str) : Str := sha256Hex text

/-- `generate_source_id(url, timestamp=None)` from `normalizer.py`.
`now` models `int(time.time())`.  `ts = timestamp or int(time.time())`
falls back to the current time when `timestamp` is `None` **or zero**
(Python `or` tests truthiness, and `0` is falsy). -/
def generate_source_id (now : Int) (url : Str) (timestamp : Option Int) : Str :=
  let url_hash := (sha256Hex url).take 12
  let ts : Int := match timestamp with
    | some t => if t = 0 then now else t
    | none => now
  "watchguard:".toList ++ url_hash ++ ":".toList ++ (toString ts).toList

/-! ### `difflib` (CPython standard library)

`SequenceMatcher` (with `isjunk=None` and the default `autojunk=True`) and
`unified_diff`, as used by `compute_diff`. -/

/-- `b2j` of `SequenceMatcher.__chain_b`: for each element the ascending list
of its indices in `b`; when `len(b) >= 200`, "popular" elements (appearing in
more than `len(b) // 100 + 1` positions) are dropped (autojunk). -/
def b2jOf [DecidableEq α] (b : List α) (x : α) : List Nat :=
  let idxs := (b.zip (List.range b.length)).filterMap
    (fun p => if p.1 = x then some p.2 else none)
  if b.length ≥ 200 && idxs.length > b.length / 100 + 1 then [] else idxs

/-- Inner loop of `find_longest_match` for one `i`: walk the ascending index
list `b2j[a[i]]`, skipping `j < blo`, breaking at `j >= bhi`, building the new
`j2len` row and updating the best match (strictly longer only, so the
earliest, leftmost match of maximal length is kept). -/
def flmRow (i blo bhi : Nat) (j2len : List (Nat × Nat)) :
    List Nat → List (Nat × Nat) → Nat × Nat × Nat → List (Nat × Nat) × (Nat × Nat × Nat)
  | [], acc, best => (acc, best)
  | j :: js, acc, best =>
      if j < blo then flmRow i blo bhi j2len js acc best
      else if j ≥ bhi then (acc, best)
      else
        let k := (if j = 0 then 0 else (List.lookup (j - 1) j2len).getD 0) + 1
        let best := if k > best.2.2 then (i + 1 - k, j + 1 - k, k) else best
        flmRow i blo bhi j2len js (acc ++ [(j, k)]) best

/-- Outer loop of `find_longest_match` over `i ∈ [alo, ahi)`. -/
def flmOuter [DecidableEq α] [Inhabited α] (a : List α) (b2j : α → List Nat)
    (blo bhi : Nat) :
    List Nat → List (Nat × Nat) → Nat × Nat × Nat → Nat × Nat × Nat
  | [], _, best => best
  | i :: is1, j2len, best =>
      let r := flmRow i blo bhi j2len (b2j (a.getI i)) [] best
      flmOuter a b2j blo bhi is1 r.1 r.2

/-- Leftward extension of the best match (`while besti > alo and ...`);
the fuel is the starting `besti`, an upper bound on the iteration count. -/
def extLeft [DecidableEq α] [Inhabited α] (a b : List α) (alo blo : Nat) :
    Nat → Nat × Nat × Nat → Nat × Nat × Nat
  | 0, best => best
  | n + 1, (bi, bj, bs) =>
      if bi > alo && bj > blo && a.getI (bi - 1) = b.getI (bj - 1) then
        extLeft a b alo blo n (bi - 1, bj - 1, bs + 1)
      else (bi, bj, bs)

/-- Rightward extension of the best match; the fuel is `ahi`. -/
def extRight [DecidableEq α] [Inhabited α] (a b : List α) (ahi bhi : Nat) :
    Nat → Nat × Nat × Nat → Nat × Nat × Nat
  | 0, best => best
  | n + 1, (bi, bj, bs) =>
      if bi + bs < ahi && bj + bs < bhi && a.getI (bi + bs) = b.getI (bj + bs) then
        extRight a b ahi bhi n (bi, bj, bs + 1)
      else (bi, bj, bs)

/-- `SequenceMatcher.find_longest_match(alo, ahi, blo, bhi)` (the junk sets
are empty with `isjunk=None`, so the junk-extension loops are no-ops). -/
def findLongestMatch [DecidableEq α] [Inhabited α] (a b : List α)
    (b2j : α → List Nat) (alo ahi blo bhi : Nat) : Nat × Nat × Nat :=
  let best := flmOuter a b2j blo bhi (List.range' alo (ahi - alo)) [] (alo, blo, 0)
  let best := extLeft a b alo blo best.1 best
  extRight a b ahi bhi ahi best

/-- The recursive region decomposition of `get_matching_blocks`: blocks are
produced in ascending order (the in-order traversal equals the sorted list the
Python implementation builds from its stack).  Fueled; the initial fuel
`la + lb + 1` strictly exceeds the recursion depth. -/
def mBlocks [DecidableEq α] [Inhabited α] (a b : List α) (b2j : α → List Nat) :
    Nat → Nat → Nat → Nat → Nat → List (Nat × Nat × Nat)
  | 0, _, _, _, _ => []
  | fuel + 1, alo, ahi, blo, bhi =>
      let m := findLongestMatch a b b2j alo ahi blo bhi
      let i := m.1; let j := m.2.1; let k := m.2.2
      if k = 0 then []
      else
        (if alo < i && blo < j then mBlocks a b b2j fuel alo i blo j else []) ++
        [(i, j, k)] ++
        (if i + k < ahi && j + k < bhi then mBlocks a b b2j fuel (i + k) ahi (j + k) bhi
         else [])

/-- Merge adjacent blocks (`non_adjacent` loop of `get_matching_blocks`). -/
def collapseBlocks : Nat × Nat × Nat → List (Nat × Nat × Nat) → List (Nat × Nat × Nat)
  | (i1, j1, k1), [] => if k1 ≠ 0 then [(i1, j1, k1)] else []
  | (i1, j1, k1), (i2, j2, k2) :: rest =>
      if i1 + k1 = i2 && j1 + k1 = j2 then collapseBlocks (i1, j1, k1 + k2) rest
      else (if k1 ≠ 0 then [(i1, j1, k1)] else []) ++ collapseBlocks (i2, j2, k2) rest

/-- `SequenceMatcher.get_matching_blocks()`, with the `(la, lb, 0)` sentinel. -/
def matchingBlocks [DecidableEq α] [Inhabited α] (a b : List α) : List (Nat × Nat × Nat) :=
  collapseBlocks (0, 0, 0)
      (mBlocks a b (b2jOf b) (a.length + b.length + 1) 0 a.length 0 b.length) ++
    [(a.length, b.length, 0)]

/-- `SequenceMatcher.ratio()`: `2 * M / T` as an exact rational
(CPython rounds this to the nearest binary64 float). -/
def smRatio [DecidableEq α] [Inhabited α] (a b : List α) : ℚ :=
  let total : Nat := (matchingBlocks a b).foldl (fun s m => s + m.2.2) 0
  let length := a.length + b.length
  if length ≠ 0 then mkRat (2 * total) length else 1

/-- One entry of `get_opcodes()`: a tag with the two index ranges. -/
structure Opcode where
  tag : String
  i1 : Nat
  i2 : Nat
  j1 : Nat
  j2 : Nat
deriving DecidableEq, Repr, Inhabited

/-- The loop of `get_opcodes()` over the matching blocks. -/
def opcodesGo : Nat → Nat → List (Nat × Nat × Nat) → List Opcode
  | _, _, [] => []
  | i, j, (ai, bj, size) :: rest =>
      let tag : String :=
        if i < ai && j < bj then "replace"
        else if i < ai then "delete"
        else if j < bj then "insert"
        else ""
      (if tag ≠ "" then [⟨tag, i, ai, j, bj⟩] else []) ++
      (if size ≠ 0 then [⟨"equal", ai, ai + size, bj, bj + size⟩] else []) ++
      opcodesGo (ai + size) (bj + size) rest

/-- `SequenceMatcher.get_opcodes()`. -/
def getOpcodes [DecidableEq α] [Inhabited α] (a b : List α) : List Opcode :=
  opcodesGo 0 0 (matchingBlocks a b)

/-- The grouping loop of `get_grouped_opcodes(n)`: split around `equal` runs
longer than `2 n`, keeping `n` lines of context on each side. -/
def groupGo (n : Nat) : List Opcode → List Opcode → List (List Opcode)
  | [], group =>
      if group ≠ [] && !(group.length = 1 && (group.headI).tag = "equal") then [group]
      else []
  | c :: rest, group =>
      if c.tag = "equal" && c.i2 - c.i1 > n + n then
        (group ++ [⟨"equal", c.i1, min c.i2 (c.i1 + n), c.j1, min c.j2 (c.j1 + n)⟩]) ::
          groupGo n rest [⟨"equal", max c.i1 (c.i2 - n), c.i2, max c.j1 (c.j2 - n), c.j2⟩]
      else groupGo n rest (group ++ [c])

/-- `SequenceMatcher.get_grouped_opcodes(n)` (default `n = 3`). -/
def groupedOpcodes [DecidableEq α] [Inhabited α] (a b : List α) (n : Nat) :
    List (List Opcode) :=
  let codes := getOpcodes a b
  let codes := if codes = [] then [⟨"equal", 0, 1, 0, 1⟩] else codes
  let codes := match codes with
    | c :: rest =>
        (if c.tag = "equal" then
          Opcode.mk c.tag (max c.i1 (c.i2 - n)) c.i2 (max c.j1 (c.j2 - n)) c.j2
         else c) :: rest
    | [] => codes
  let codes := match codes.reverse with
    | c :: rest =>
        ((if c.tag = "equal" then
           Opcode.mk c.tag c.i1 (min c.i2 (c.i1 + n)) c.j1 (min c.j2 (c.j1 + n))
          else c) :: rest).reverse
    | [] => codes
  groupGo n codes []

/-- `difflib._format_range_unified(start, stop)`. -/
def formatRangeUnified (start stop : Nat) : Str :=
  let beginning := start + 1
  let length := stop - start
  if length = 1 then (toString beginning).toList
  else
    (toString (if length = 0 then beginning - 1 else beginning)).toList ++
      ",".toList ++ (toString length).toList

/-- The lines `unified_diff` emits for one opcode group (with `lineterm=""`,
so no line terminator is appended to the `@@` header). -/
def groupLines (a b : List Str) (g : List Opcode) : List Str :=
  let first := g.headI
  let last := g.getLastD first
  ("@@ -".toList ++ formatRangeUnified first.i1 last.i2 ++
   " +".toList ++ formatRangeUnified first.j1 last.j2 ++ " @@".toList) ::
  g.flatMap (fun c =>
    if c.tag = "equal" then ((a.drop c.i1).take (c.i2 - c.i1)).map (' ' :: ·)
    else
      (if c.tag = "replace" || c.tag = "delete" then
        ((a.drop c.i1).take (c.i2 - c.i1)).map ('-' :: ·)
       else []) ++
      (if c.tag = "replace" || c.tag = "insert" then
        ((b.drop c.j1).take (c.j2 - c.j1)).map ('+' :: ·)
       else []))

/-- `difflib.unified_diff(a, b, fromfile="previous", tofile="current",
lineterm="")`, as a list of lines.  The two file headers are emitted before
the first group only; with no groups nothing is emitted. -/
def unifiedDiff (a b : List Str) : List Str :=
  let groups := groupedOpcodes a b 3
  if groups = [] then []
  else "--- previous".toList :: "+++ current".toList :: groups.flatMap (groupLines a b)

/-! ### The differ (`differ.py`) -/

/-- A Python `str.splitlines` line boundary character. -/
def isLineBreak (c : Char) : Bool :=
  decide (cv c = 10 ∨ cv c = 13 ∨ cv c = 11 ∨ cv c = 12 ∨
    cv c = 28 ∨ cv c = 29 ∨ cv c = 30 ∨ cv c = 133 ∨
    cv c = 0x2028 ∨ cv c = 0x2029)

/-- `str.splitlines(keepends=True)`; `acc` holds the current line reversed. -/
def splitKeepGo (acc : Str) : Str → List Str
  | [] => if acc = [] then [] else [acc.reverse]
  | '\r' :: '\n' :: rest => (acc.reverse ++ ['\r', '\n']) :: splitKeepGo [] rest
  | c :: rest =>
      if isLineBreak c then (acc.reverse ++ [c]) :: splitKeepGo [] rest
      else splitKeepGo (c :: acc) rest

/-- `s.splitlines(keepends=True)`. -/
def splitLinesKE (s : Str) : List Str := splitKeepGo [] s

/-- `DiffResult` from `differ.py`.  The field `similarity` models the Python
field `similarity_ratio`, as an exact rational. -/
structure DiffResult where
  has_changes : Bool
  diff_text : Str
  similarity : ℚ
  added_lines : Nat
  removed_lines : Nat
  added_chars : Nat
deriving DecidableEq, Repr

/-- `MIN_CHANGE_RATIO = 0.01` from `differ.py`. -/
def MIN_CHANGE_FRAC : ℚ := mkRat 1 100

/-- `MAX_CHANGE_RATIO = 0.95` from `differ.py`. -/
def MAX_CHANGE_FRAC : ℚ := mkRat 95 100

/-- `MIN_ADDED_CHARS = 20` from `differ.py`. -/
def MIN_ADDED_CHARS : Nat := 20

/-- `line.startswith("+")`. -/
def swPlus (l : Str) : Bool := l.take 1 = ['+']

/-- `line.startswith("+++")`. -/
def swPlus3 (l : Str) : Bool := l.take 3 = "+++".toList

/-- `line.startswith("-")`. -/
def swMinus (l : Str) : Bool := l.take 1 = ['-']

/-- `line.startswith("---")`. -/
def swMinus3 (l : Str) : Bool := l.take 3 = "---".toList

/-- `compute_diff(previous, current)` from `differ.py`. -/
def compute_diff (previous current : Str) : DiffResult :=
  if previous = [] && current = [] then
    { has_changes := false, diff_text := [], similarity := 1,
      added_lines := 0, removed_lines := 0, added_chars := 0 }
  else if previous = [] then
    { has_changes := true,
      diff_text := "+++ new content\n".toList ++ current,
      similarity := 0,
      added_lines := (splitLinesKE current).length,
      removed_lines := 0,
      added_chars := current.length }
  else if current = [] then
    { has_changes := true,
      diff_text := "--- content removed\n".toList ++ previous,
      similarity := 0,
      added_lines := 0,
      removed_lines := (splitLinesKE previous).length,
      added_chars := 0 }
  else
    let prev_lines := splitLinesKE previous
    let curr_lines := splitLinesKE current
    let diff_lines := unifiedDiff prev_lines curr_lines
    let diff_text := diff_lines.flatten
    let added_lines := (diff_lines.filter (fun l => swPlus l && !swPlus3 l)).length
    let removed_lines := (diff_lines.filter (fun l => swMinus l && !swMinus3 l)).length
    let added_content :=
      (diff_lines.filter (fun l => swPlus l && !swPlus3 l)).flatMap (List.drop 1)
    let added_chars := (stripWs added_content).length
    { has_changes := diff_lines.length > 0,
      diff_text := diff_text,
      similarity := smRatio previous current,
      added_lines := added_lines,
      removed_lines := removed_lines,
      added_chars := added_chars }

/-- `is_meaningful_change(diff_result)` from `differ.py`: the decision policy,
in source order — no changes; change fraction below `MIN_CHANGE_RATIO`;
change fraction above `MAX_CHANGE_RATIO` (reported as meaningful); added
characters below `MIN_ADDED_CHARS`; otherwise meaningful. -/
def is_meaningful_change (d : DiffResult) : Bool :=
  if !d.has_changes then false
  else
    let change : ℚ := 1 - d.similarity
    if change < MIN_CHANGE_FRAC then false
    else if change > MAX_CHANGE_FRAC then true
    else if d.added_chars < MIN_ADDED_CHARS then false
    else true

/- `format_diff_summary(diff_result)` is display-only; the claims below do
not depend on its text, so the runner model takes it as a parameter. -/

/-! ### The snapshot store (`storage.py`)

One SQLite table `snapshots(id AUTOINCREMENT, url, content_hash,
normalized_text, raw_text, title, fetched_at)`, modelled as a list of rows in
insertion order plus the auto-increment counter.  `fetched_at` (an ISO
timestamp in SQLite) is modelled as a `Nat`; `ORDER BY fetched_at DESC` scans
the `(url, fetched_at DESC)` index, which orders equal timestamps by ascending
rowid. -/

/-- A row of the `snapshots` table (also the `Snapshot` dataclass; `text` is
the `normalized_text` column). -/
structure Row where
  id : Nat
  url : String
  content_hash : String
  text : Str
  raw_text : Str
  title : Option String
  fetched_at : Nat
deriving DecidableEq, Repr

/-- The database: rows in insertion order and the next auto-increment id. -/
structure DB where
  rows : List Row
  next_id : Nat
deriving DecidableEq, Repr

/-- `SELECT … ORDER BY fetched_at DESC` comparison: newer first, ties by
ascending rowid (the `(url, fetched_at DESC)` index order). -/
def rowLE (r1 r2 : Row) : Bool :=
  r2.fetched_at < r1.fetched_at || (r2.fetched_at = r1.fetched_at && r1.id ≤ r2.id)

/-- Insertion into a list sorted by `rowLE`. -/
def insertRow (r : Row) : List Row → List Row
  | [] => [r]
  | x :: l => if rowLE r x then r :: x :: l else x :: insertRow r l

/-- Insertion sort by `rowLE` (most recent first). -/
def sortRows : List Row → List Row
  | [] => []
  | r :: l => insertRow r (sortRows l)

/-- `Storage.get_latest_snapshot(url)`. -/
def get_latest_snapshot (db : DB) (url : String) : Option Row :=
  (sortRows (db.rows.filter (fun r => r.url = url))).head?

/-- `Storage.save_snapshot(snapshot)`: append-only insert, assigning the
auto-increment id. -/
def save_snapshot (db : DB) (r : Row) : DB :=
  { rows := db.rows ++ [{ r with id := db.next_id }], next_id := db.next_id + 1 }

/-- `SnapshotComparison` from `storage.py`. -/
structure SnapshotComparison where
  has_previous : Bool
  is_changed : Bool
  previous : Option Row
  current : Row
deriving Repr

/-- `Storage.compare_and_save(url, content_hash, normalized_text, raw_text,
title)`; `now` models `datetime.now(timezone.utc)`. -/
def compare_and_save (db : DB) (now : Nat) (url : String) (content_hash : String)
    (normalized_text raw_text : Str) (title : Option String) :
    SnapshotComparison × DB :=
  let current : Row :=
    { id := 0, url := url, content_hash := content_hash, text := normalized_text,
      raw_text := raw_text, title := title, fetched_at := now }
  match get_latest_snapshot db url with
  | none =>
      ({ has_previous := false, is_changed := true, previous := none,
         current := current }, save_snapshot db current)
  | some previous =>
      let is_changed := previous.content_hash ≠ content_hash
      ({ has_previous := true, is_changed := is_changed, previous := some previous,
         current := current },
       if is_changed then save_snapshot db current else db)

/-- `Storage.get_snapshot_count(url)`. -/
def get_snapshot_count (db : DB) (url : String) : Nat :=
  (db.rows.filter (fun r => r.url = url)).length

/-- `Storage.cleanup_old_snapshots(url, keep_count)`: select the ids of the
`keep_count` most recent rows for the URL; if that id list is empty (no rows,
or `keep_count = 0` via `LIMIT 0`) return without deleting; otherwise delete
the URL's rows whose id is not in the list. -/
def cleanup_old_snapshots (db : DB) (url : String) (keep_count : Nat) : DB :=
  let keep_ids :=
    ((sortRows (db.rows.filter (fun r => r.url = url))).take keep_count).map Row.id
  if keep_ids = [] then db
  else
    { db with
      rows := db.rows.filter (fun r => !(r.url = url && !keep_ids.contains r.id)) }

/-! ### The scheduler (`scheduler.py`) -/

/-- `SchedulerConfig` from `scheduler.py` (with its defaults).  `last_run` and
`next_scheduled_run` are timestamps the decision logic never reads. -/
structure SchedulerConfig where
  enabled : Bool := true
  start_hour : Nat := 7
  end_hour : Nat := 17
  interval_hours : Nat := 3
  last_run : Option Nat := none
  next_scheduled_run : Option Nat := none
  trigger_pending : Bool := false
deriving DecidableEq, Repr

/-- `WatchGuardScheduler._is_within_active_hours(config)`; `hour` models
`datetime.utcnow().hour`. -/
def is_within_active_hours (config : SchedulerConfig) (hour : Nat) : Bool :=
  config.start_hour ≤ hour && hour < config.end_hour

/-- `WatchGuardScheduler._should_run(config)`: trigger first, then the enabled
flag, then the active-hours window. -/
def should_run (config : SchedulerConfig) (hour : Nat) : Bool × String :=
  if config.trigger_pending then (true, "trigger_pending")
  else if !config.enabled then (false, "scheduler_disabled")
  else if !is_within_active_hours config hour then (false, "outside_active_hours")
  else (true, "scheduled")

/-! ### The runner (`runner.py`)

`run_single` is embedded as a pure state-passing function.  Its collaborators
(the functions it imports from `fetcher`, `extractor`, `normalizer`, `differ`,
`ingest_client`) are parameters, so every theorem below holds for the real
instantiations in particular; the network fetch outcome and the ingest
endpoint's response behaviour are inputs.  The returned list collects the
payloads of the ingest POST calls made (empty = no call). -/

/-- `FetchResult` (fetcher boundary): as consumed by `run_single`. -/
structure FetchResultM where
  success : Bool
  content : Str
  fetch_mode : String
  error : Option String
deriving Repr

/-- `IngestResult` (ingest-client boundary). -/
structure IngestResultM where
  success : Bool
  ok : Bool
  duplicate : Bool
  change_id : Option Int
  error : Option String
deriving Repr

/-- The ingest payload built by `build_payload` (the fields `run_single`
determines; `fetched_at`, `source_name`, `source_country` are copied from
inputs the claims do not touch). -/
structure Payload where
  source_id : Str
  title : String
  previous_text : Str
  current_text : Str
  diff_text : Str
  content_hash : String
  fetch_mode : String
deriving Repr, Inhabited, DecidableEq

/-- `RunResult` from `runner.py`, with its dataclass defaults. -/
structure RunResult where
  url : String
  name : String
  success : Bool
  fetch_success : Bool := false
  has_previous : Bool := false
  is_changed : Bool := false
  is_meaningful : Bool := false
  was_ingested : Bool := false
  was_duplicate : Bool := false
  change_id : Option Int := none
  error : Option String := none
  diff_summary : Option String := none
deriving Repr

/-- The site fields `run_single` reads. -/
structure SiteM where
  url : String
  name : String
deriving Repr

/-- `run_single(site)` from `runner.py`.  Parameters, in order: the imported
collaborators `normalize`, `compute_hash`, `compute_diff`,
`is_meaningful_change`, `format_diff_summary`, `extract_text`,
`get_page_title`, `generate_source_id` (already applied to the current time),
and the ingest client's `post_change`; then the site, the fetch outcome, the
store and the current time.  Mirrors the Python control flow step by step,
including `title = get_page_title(...) or site.name` (empty string is falsy). -/
def run_single
    (normalizeF : Str → Str) (hashF : Str → String)
    (diffF : Str → Str → DiffResult) (meaningfulF : DiffResult → Bool)
    (summaryF : DiffResult → String)
    (extractF : Str → Str) (titleF : Str → Option String)
    (sourceIdF : String → Str)
    (ingestF : Payload → IngestResultM)
    (site : SiteM) (fetchRes : FetchResultM) (db : DB) (now : Nat) :
    RunResult × DB × List Payload :=
  let result : RunResult := { url := site.url, name := site.name, success := false }
  if !fetchRes.success then ({ result with error := fetchRes.error }, db, [])
  else
    let result := { result with fetch_success := true }
    let raw_text := extractF fetchRes.content
    if raw_text = [] || (stripWs raw_text).length < 50 then
      ({ result with error := some "Extracted text too short (< 50 chars)" }, db, [])
    else
      let title := match titleF fetchRes.content with
        | some t => if t = "" then site.name else t
        | none => site.name
      let normalized := normalizeF raw_text
      let content_hash := hashF normalized
      let cs := compare_and_save db now site.url content_hash normalized raw_text
        (some title)
      let comparison := cs.1
      let db1 := cs.2
      let result := { result with
        has_previous := comparison.has_previous,
        is_changed := comparison.is_changed }
      if !comparison.is_changed then ({ result with success := true }, db1, [])
      else
        let post := fun (result : RunResult) (diff_text previous_text : Str) =>
          let payload : Payload :=
            { source_id := sourceIdF site.url, title := title,
              previous_text := previous_text, current_text := raw_text,
              diff_text := diff_text, content_hash := content_hash,
              fetch_mode := fetchRes.fetch_mode }
          let ingest_result := ingestF payload
          if ingest_result.success then
            ({ result with
                success := true,
                was_ingested := ingest_result.ok && !ingest_result.duplicate,
                was_duplicate := ingest_result.duplicate,
                change_id := ingest_result.change_id }, db1, [payload])
          else ({ result with error := ingest_result.error }, db1, [payload])
        match comparison.previous with
        | some previous =>
            let diff_result := diffF previous.raw_text comparison.current.raw_text
            let result := { result with
              diff_summary := some (summaryF diff_result),
              is_meaningful := meaningfulF diff_result }
            if !result.is_meaningful then ({ result with success := true }, db1, [])
            else post result diff_result.diff_text previous.raw_text
        | none =>
            let diff_text := "+++ Initial fetch\n".toList ++ raw_text.take 1000 ++
              "...".toList
            let result := { result with is_meaningful := true }
            post result diff_text []

end WG

namespace WG

/-! ### Helper definitions for the claim statements -/

/-- The bodies (text after the `+` marker) of the added lines of the unified
diff of two texts, recomputed from the diff output: the diff lines that start
with `"+"` but not `"+++"`, each with its first character dropped. -/
def addedBodies (previous current : Str) : Str :=
  ((unifiedDiff (splitLinesKE previous) (splitLinesKE current)).filter
    (fun l => swPlus l && !swPlus3 l)).flatMap (List.drop 1)

/-- Sample collaborator instantiations used by the runner witnesses below:
an extractor returning fifty characters, a constant hash, a trivial diff, and
ingest clients that always succeed / always fail (the failing one mirrors the
ingest client's behaviour of always setting `error` on failure). -/
def wNormalize : Str → Str := id

/-- Constant-hash sample collaborator. -/
def wHash : Str → String := fun _ => "H"

/-- Trivial-diff sample collaborator. -/
def wDiff : Str → Str → DiffResult :=
  fun _ _ => { has_changes := false, diff_text := [], similarity := 1,
               added_lines := 0, removed_lines := 0, added_chars := 0 }

/-- Constant-summary sample collaborator. -/
def wSummary : DiffResult → String := fun _ => ""

/-- Fifty-character extractor sample collaborator. -/
def wExtract : Str → Str := fun _ => List.replicate 50 'a'

/-- Titleless page sample collaborator. -/
def wTitle : Str → Option String := fun _ => none

/-- Empty source-id sample collaborator. -/
def wSourceId : String → Str := fun _ => []

/-- Always-succeeding ingest client. -/
def wIngestOk : Payload → IngestResultM :=
  fun _ => { success := true, ok := true, duplicate := false,
             change_id := none, error := none }

/-- Always-failing ingest client (error always set). -/
def wIngestFail : Payload → IngestResultM :=
  fun _ => { success := false, ok := false, duplicate := false,
             change_id := none, error := some "Timeout: boom" }

/-- Whitespace-normal form: every whitespace character is a plain space, and
no two adjacent characters are both whitespace. -/
def Collapsed (l : Str) : Prop :=
  (∀ c ∈ l, isWsPy c = true → c = ' ') ∧
  List.Chain' (fun a b => ¬(isWsPy a = true ∧ isWsPy b = true)) l

/-- Sample site. -/
def wSite : SiteM := { url := "u", name := "n" }

/-- Sample successful fetch. -/
def wFetch : FetchResultM :=
  { success := true, content := [], fetch_mode := "http", error := none }

end WG

namespace WG

/-! ## The claims -/

unseal Rat.sub in
/-- C1, counterexample: for `previous = "a"`, `current = "z"` the diff has
`added_chars = 1 < 20`, yet `is_meaningful_change` returns `true`, because the
extreme-change rule (`change_ratio > 0.95` ⇒ meaningful) is applied *before*
the `added_chars` rule. -/
theorem c1_counterexample :
    (compute_diff "a".toList "z".toList).added_chars < MIN_ADDED_CHARS ∧
    is_meaningful_change (compute_diff "a".toList "z".toList) = true := by
  decide

/-- C1 (amended): if `compute_diff(previous, current).added_chars < 20` and
the change ratio `1 - similarity_ratio` does **not** exceed
`MAX_CHANGE_RATIO = 0.95`, then `is_meaningful_change` of that result is
`false`.  (When the change ratio exceeds 0.95 the extreme-change rule fires
first and the result is meaningful regardless of `added_chars`.) -/
theorem c1_added_chars_below_min (p c : Str)
    (h1 : (compute_diff p c).added_chars < MIN_ADDED_CHARS)
    (h2 : 1 - (compute_diff p c).similarity ≤ MAX_CHANGE_FRAC) :
    is_meaningful_change (compute_diff p c) = false := by
  have h3 : ¬(1 - (compute_diff p c).similarity > MAX_CHANGE_FRAC) := not_lt.mpr h2
  simp only [is_meaningful_change]
  split_ifs <;> rfl

unseal Rat.sub in
/-- C1 witness: a concrete non-extreme small change
(`previous = "aaaa"`, `current = "aaab"`). -/
theorem c1_added_chars_below_min_witness :
    is_meaningful_change (compute_diff "aaaa".toList "aaab".toList) = false :=
  c1_added_chars_below_min "aaaa".toList "aaab".toList (by decide) (by decide)

/-- C5: the scheduler runs exactly when `trigger_pending` is set, or the
scheduler is enabled and the current UTC hour lies in the half-open window
`[start_hour, end_hour)`. -/
theorem c5_should_run_decision (config : SchedulerConfig) (hour : Nat) :
    (should_run config hour).1 = true ↔
      (config.trigger_pending = true ∨
        (config.enabled = true ∧ config.start_hour ≤ hour ∧ hour < config.end_hour)) := by
  unfold should_run is_within_active_hours
  rcases config with ⟨en, sh, eh, ih, lr, nr, tp⟩
  cases tp <;> cases en <;> simp
  all_goals split_ifs with h
  all_goals simp_all
  all_goals omega

/-- C7, counterexample: with timestamp `0` explicitly supplied,
`ts = timestamp or int(time.time())` falls back to the current time (Python
`or` tests truthiness), so the result does not end in `":0"` and depends on
the clock. -/
theorem c7_counterexample :
    generate_source_id 5 "abc".toList (some 0) ≠
      "watchguard:".toList ++ (sha256Hex "abc".toList).take 12 ++
        ":".toList ++ (toString (0 : Int)).toList ∧
    generate_source_id 5 "abc".toList (some 0) ≠
      generate_source_id 6 "abc".toList (some 0) := by
  decide

/-- C7 (amended): for every URL and every explicitly supplied **non-zero**
timestamp `t`, `generate_source_id` deterministically returns
`"watchguard:" ++ (first 12 hex chars of SHA-256 of the UTF-8 encoding of the
URL) ++ ":" ++ t`, independently of the current time; for `t = 0` the code
substitutes the current time. -/
theorem c7_source_id_format (now now2 : Int) (url : Str) (t : Int) (h : t ≠ 0) :
    generate_source_id now url (some t) =
      "watchguard:".toList ++ (sha256Hex url).take 12 ++
        ":".toList ++ (toString t).toList ∧
    generate_source_id now url (some t) = generate_source_id now2 url (some t) := by
  unfold generate_source_id
  simp [h]

/-- C7 witness: concrete URL `"abc"`, timestamp `7`, two different clock
values. -/
theorem c7_source_id_format_witness :
    generate_source_id 1 "abc".toList (some 7) =
      "watchguard:".toList ++ (sha256Hex "abc".toList).take 12 ++
        ":".toList ++ (toString (7 : Int)).toList ∧
    generate_source_id 1 "abc".toList (some 7) =
      generate_source_id 2 "abc".toList (some 7) :=
  c7_source_id_format 1 2 "abc".toList 7 (by decide)

end WG

namespace WG

/-- C4, counterexample: for `previous = "x"`, `current = "a b"` the added line
body is `"a b"`; the code computes `len("a b".strip()) = 3` (interior
whitespace counts), while the claimed count of non-whitespace characters is 2.
-/
theorem c4_counterexample :
    (compute_diff "x".toList "a b".toList).added_chars = 3 ∧
    nonWsCount (addedBodies "x".toList "a b".toList) = 2 := by
  decide

/-- C4 (amended): in the general branch, `added_chars` is the length of the
concatenation of the added-line bodies after stripping leading and trailing
whitespace from the concatenation (interior whitespace is counted); in the
previous-empty first-content branch it is the full length of `current`,
whitespace included. -/
theorem c4_added_chars_value (p c : Str) :
    (p ≠ [] → c ≠ [] →
      (compute_diff p c).added_chars = (stripWs (addedBodies p c)).length) ∧
    (c ≠ [] → (compute_diff [] c).added_chars = c.length) := by
  constructor
  · intro hp hc
    unfold compute_diff addedBodies
    simp [hp, hc]
  · intro hc
    unfold compute_diff
    simp [hc]

/-- C4 witness: the two branches at concrete inputs. -/
theorem c4_added_chars_value_witness :
    (compute_diff "x".toList "a b".toList).added_chars =
      (stripWs (addedBodies "x".toList "a b".toList)).length ∧
    (compute_diff [] " ab".toList).added_chars = " ab".toList.length :=
  ⟨(c4_added_chars_value "x".toList "a b".toList).1 (by decide) (by decide),
   (c4_added_chars_value "x".toList " ab".toList).2 (by decide)⟩

/-- C10: in the general branch, `added_lines` (resp. `removed_lines`) counts
exactly the diff lines starting with `"+"` but not `"+++"` (resp. `"-"` but
not `"---"`); consequently an inserted source line itself beginning with
`"++"` is excluded from the counts, as its prefixed diff line starts with
`"+++"` — witnessed by `previous = "a\n"`, `current = "a\n++x\n"`, whose
inserted line `"++x\n"` yields `added_lines = 0` and `added_chars = 0`. -/
theorem c10_plus_prefix_exclusion (p c : Str) (hp : p ≠ []) (hc : c ≠ []) :
    ((compute_diff p c).added_lines =
        ((unifiedDiff (splitLinesKE p) (splitLinesKE c)).filter
          (fun l => swPlus l && !swPlus3 l)).length ∧
      (compute_diff p c).removed_lines =
        ((unifiedDiff (splitLinesKE p) (splitLinesKE c)).filter
          (fun l => swMinus l && !swMinus3 l)).length) ∧
    ((splitLinesKE "a\n++x\n".toList).contains "++x\n".toList = true ∧
      (splitLinesKE "a\n".toList).contains "++x\n".toList = false ∧
      (compute_diff "a\n".toList "a\n++x\n".toList).added_lines = 0 ∧
      (compute_diff "a\n".toList "a\n++x\n".toList).added_chars = 0) := by
  constructor
  · unfold compute_diff
    simp [hp, hc]
  · decide

/-- C10 witness: the counting characterisation applied at the concrete
`"++"`-line input. -/
theorem c10_plus_prefix_exclusion_witness :
    (compute_diff "a\n".toList "a\n++x\n".toList).added_lines =
      ((unifiedDiff (splitLinesKE "a\n".toList) (splitLinesKE "a\n++x\n".toList)).filter
        (fun l => swPlus l && !swPlus3 l)).length ∧
    (compute_diff "a\n".toList "a\n++x\n".toList).removed_lines =
      ((unifiedDiff (splitLinesKE "a\n".toList) (splitLinesKE "a\n++x\n".toList)).filter
        (fun l => swMinus l && !swMinus3 l)).length :=
  (c10_plus_prefix_exclusion "a\n".toList "a\n++x\n".toList (by decide) (by decide)).1

end WG

namespace WG

/-- Appending a snapshot whose `url` is `url` raises that URL's count by 1. -/
theorem get_snapshot_count_save (db : DB) (r : Row) (url : String) (h : r.url = url) :
    get_snapshot_count (save_snapshot db r) url = get_snapshot_count db url + 1 := by
  unfold get_snapshot_count save_snapshot
  simp [List.filter_append, h]

/-- C2: a `compare_and_save` whose `content_hash` equals the stored latest
snapshot's hash leaves the store (hence `get_snapshot_count`) unchanged and
inserts no row; one with a different hash — or with no previous snapshot —
increases `get_snapshot_count(url)` by exactly 1. -/
theorem c2_dedup_invariant (db : DB) (now : Nat) (url content_hash : String)
    (nt rt : Str) (ti : Option String) :
    (((get_latest_snapshot db url).map Row.content_hash = some content_hash) →
      (compare_and_save db now url content_hash nt rt ti).2 = db ∧
      get_snapshot_count (compare_and_save db now url content_hash nt rt ti).2 url =
        get_snapshot_count db url) ∧
    (((get_latest_snapshot db url).map Row.content_hash ≠ some content_hash) →
      get_snapshot_count (compare_and_save db now url content_hash nt rt ti).2 url =
        get_snapshot_count db url + 1) := by
  cases hl : get_latest_snapshot db url with
  | none =>
      refine ⟨fun h => by simp [hl] at h, fun _ => ?_⟩
      unfold compare_and_save
      rw [hl]
      exact get_snapshot_count_save db _ url rfl
  | some p =>
      constructor
      · intro h
        have hh : p.content_hash = content_hash := by simpa [hl] using h
        unfold compare_and_save
        rw [hl]
        simp [hh]
      · intro h
        have hh : p.content_hash ≠ content_hash := by simpa [hl] using h
        unfold compare_and_save
        rw [hl]
        simp only [if_pos hh]
        exact get_snapshot_count_save db _ url rfl

/-- C2 witness: a store holding one row for `"u"` with hash `"h"`; saving hash
`"h"` again leaves the count at 1, saving hash `"g"` raises it to 2, and a
first-ever URL `"v"` goes from 0 to 1. -/
theorem c2_dedup_invariant_witness :
    ((compare_and_save (DB.mk [Row.mk 1 "u" "h" [] [] none 5] 2) 6 "u" "h" [] [] none).2 =
        DB.mk [Row.mk 1 "u" "h" [] [] none 5] 2 ∧
      get_snapshot_count
        (compare_and_save (DB.mk [Row.mk 1 "u" "h" [] [] none 5] 2) 6 "u" "h" [] [] none).2 "u" =
        get_snapshot_count (DB.mk [Row.mk 1 "u" "h" [] [] none 5] 2) "u") ∧
    (get_snapshot_count
        (compare_and_save (DB.mk [Row.mk 1 "u" "h" [] [] none 5] 2) 6 "u" "g" [] [] none).2 "u" =
        get_snapshot_count (DB.mk [Row.mk 1 "u" "h" [] [] none 5] 2) "u" + 1) ∧
    (get_snapshot_count
        (compare_and_save (DB.mk [Row.mk 1 "u" "h" [] [] none 5] 2) 6 "v" "g" [] [] none).2 "v" =
        get_snapshot_count (DB.mk [Row.mk 1 "u" "h" [] [] none 5] 2) "v" + 1) :=
  ⟨(c2_dedup_invariant (DB.mk [Row.mk 1 "u" "h" [] [] none 5] 2) 6 "u" "h" [] [] none).1
      (by decide),
   (c2_dedup_invariant (DB.mk [Row.mk 1 "u" "h" [] [] none 5] 2) 6 "u" "g" [] [] none).2
      (by decide),
   (c2_dedup_invariant (DB.mk [Row.mk 1 "u" "h" [] [] none 5] 2) 6 "v" "g" [] [] none).2
      (by decide)⟩

end WG

namespace WG

/-- C9: on a first-ever fetch (no stored snapshot), `run_single` reports
`is_meaningful = true`, builds the single ingest payload with
`diff_text = "+++ Initial fetch\n" ++ (first 1000 characters of the raw
extracted text) ++ "..."` and an empty `previous_text` — and the
`is_meaningful_change` collaborator is never invoked: the outcome is the same
for any two meaningfulness functions `mf`, `mg`. -/
theorem c9_initial_fetch
    (nF : Str → Str) (hF : Str → String)
    (dF : Str → Str → DiffResult) (mf mg : DiffResult → Bool)
    (sF : DiffResult → String)
    (eF : Str → Str) (tF : Str → Option String)
    (idF : String → Str) (igF : Payload → IngestResultM)
    (site : SiteM) (fetchRes : FetchResultM) (db : DB) (now : Nat)
    (hf : fetchRes.success = true)
    (h1 : eF fetchRes.content ≠ [])
    (h2 : ¬(stripWs (eF fetchRes.content)).length < 50)
    (hprev : get_latest_snapshot db site.url = none) :
    ((run_single nF hF dF mf sF eF tF idF igF site fetchRes db now).1.is_meaningful
        = true ∧
      (run_single nF hF dF mf sF eF tF idF igF site fetchRes db now).1.has_previous
        = false ∧
      (run_single nF hF dF mf sF eF tF idF igF site fetchRes db now).2.2.map
          Payload.diff_text =
        ["+++ Initial fetch\n".toList ++ (eF fetchRes.content).take 1000 ++
          "...".toList] ∧
      (run_single nF hF dF mf sF eF tF idF igF site fetchRes db now).2.2.map
          Payload.previous_text = [[]]) ∧
    run_single nF hF dF mf sF eF tF idF igF site fetchRes db now =
      run_single nF hF dF mg sF eF tF idF igF site fetchRes db now := by
  unfold run_single compare_and_save
  simp [hf, h1, h2, hprev]
  split <;> simp

end WG

namespace WG

/-- Appending a row strictly fresher than every stored row for its URL makes
it the URL's latest snapshot. -/
theorem sortRows_append_max (L : List Row) (r : Row)
    (h : ∀ x ∈ L, x.fetched_at < r.fetched_at) :
    (sortRows (L ++ [r])).head? = some r := by
  induction L with
  | nil => rfl
  | cons x L ih =>
      have hx : x.fetched_at < r.fetched_at := h x (by simp)
      have ih1 := ih (fun y hy => h y (by simp [hy]))
      show (insertRow x (sortRows (L ++ [r]))).head? = some r
      cases hS : sortRows (L ++ [r]) with
      | nil => rw [hS] at ih1; simp at ih1
      | cons a T =>
          rw [hS] at ih1
          simp at ih1
          subst ih1
          have hle : rowLE x a = false := by
            unfold rowLE
            simp
            omega
          unfold insertRow
          rw [hle]
          rfl

/-- `get_latest_snapshot` after `save_snapshot` of a strictly fresher row for
the URL returns exactly that row (with its assigned id). -/
theorem get_latest_snapshot_save (db : DB) (r : Row) (url : String)
    (hu : r.url = url)
    (hf : ∀ x ∈ db.rows, x.url = url → x.fetched_at < r.fetched_at) :
    get_latest_snapshot (save_snapshot db r) url = some { r with id := db.next_id } := by
  unfold get_latest_snapshot save_snapshot
  have hfil : (db.rows ++ [{ r with id := db.next_id }]).filter (fun x => x.url = url) =
      db.rows.filter (fun x => x.url = url) ++ [{ r with id := db.next_id }] := by
    simp [List.filter_append, hu]
  rw [hfil]
  exact sortRows_append_max _ _ (fun x hx => hf x (List.mem_of_mem_filter hx)
    (by simpa using (List.of_mem_filter hx)))

end WG

namespace WG

/-- C8: `run_single` saves the new snapshot (through `compare_and_save`)
before attempting the ingest POST.  If the run makes an ingest call and the
ingest endpoint fails every call, the `RunResult` has `success = false` with
`error` set to the ingest error, yet the store already holds the new content
as the URL's latest snapshot; a subsequent `run_single` with identically
extracted content therefore reports `is_changed = false`, succeeds, makes no
ingest call and leaves the store untouched — the failed change is never
re-sent. -/
theorem c8_ingest_failure_not_resent
    (nF : Str → Str) (hF : Str → String) (dF : Str → Str → DiffResult)
    (mf : DiffResult → Bool) (sF : DiffResult → String)
    (eF : Str → Str) (tF : Str → Option String) (idF : String → Str)
    (igF : Payload → IngestResultM)
    (site : SiteM) (fetchRes fetchRes2 : FetchResultM) (db : DB) (now now2 : Nat)
    (hf : fetchRes.success = true)
    (h1 : eF fetchRes.content ≠ [])
    (h2 : ¬(stripWs (eF fetchRes.content)).length < 50)
    (hf2 : fetchRes2.success = true)
    (hsame : eF fetchRes2.content = eF fetchRes.content)
    (hing : ∀ p, (igF p).success = false)
    (hfresh : ∀ r ∈ db.rows, r.url = site.url → r.fetched_at < now)
    (hcall : (run_single nF hF dF mf sF eF tF idF igF site fetchRes db now).2.2 ≠ []) :
    (run_single nF hF dF mf sF eF tF idF igF site fetchRes db now).1.success = false ∧
    (run_single nF hF dF mf sF eF tF idF igF site fetchRes db now).1.error =
      (igF (run_single nF hF dF mf sF eF tF idF igF site fetchRes db now).2.2.headI).error ∧
    (get_latest_snapshot
        (run_single nF hF dF mf sF eF tF idF igF site fetchRes db now).2.1
        site.url).map Row.content_hash = some (hF (nF (eF fetchRes.content))) ∧
    (run_single nF hF dF mf sF eF tF idF igF site fetchRes2
        (run_single nF hF dF mf sF eF tF idF igF site fetchRes db now).2.1 now2).1.is_changed
      = false ∧
    (run_single nF hF dF mf sF eF tF idF igF site fetchRes2
        (run_single nF hF dF mf sF eF tF idF igF site fetchRes db now).2.1 now2).1.success
      = true ∧
    (run_single nF hF dF mf sF eF tF idF igF site fetchRes2
        (run_single nF hF dF mf sF eF tF idF igF site fetchRes db now).2.1 now2).2.2 = [] ∧
    (run_single nF hF dF mf sF eF tF idF igF site fetchRes2
        (run_single nF hF dF mf sF eF tF idF igF site fetchRes db now).2.1 now2).2.1
      = (run_single nF hF dF mf sF eF tF idF igF site fetchRes db now).2.1 := by
  cases hl : get_latest_snapshot db site.url with
  | none =>
      have hlat := get_latest_snapshot_save db
        { id := 0, url := site.url, content_hash := hF (nF (eF fetchRes.content)),
          text := nF (eF fetchRes.content), raw_text := eF fetchRes.content,
          title := some (match tF fetchRes.content with
            | some t => if t = "" then site.name else t
            | none => site.name),
          fetched_at := now } site.url rfl (fun x hx hu => hfresh x hx hu)
      simp [run_single, compare_and_save, hf, h1, h2, hl, hing, hf2, hsame, hlat]
  | some p =>
      by_cases hch : p.content_hash = hF (nF (eF fetchRes.content))
      · exfalso
        apply hcall
        simp [run_single, compare_and_save, hf, h1, h2, hl, hch]
      · by_cases hmf : mf (dF p.raw_text (eF fetchRes.content)) = true
        · have hlat := get_latest_snapshot_save db
            { id := 0, url := site.url, content_hash := hF (nF (eF fetchRes.content)),
              text := nF (eF fetchRes.content), raw_text := eF fetchRes.content,
              title := some (match tF fetchRes.content with
                | some t => if t = "" then site.name else t
                | none => site.name),
              fetched_at := now } site.url rfl (fun x hx hu => hfresh x hx hu)
          simp [run_single, compare_and_save, hf, h1, h2, hl, hch, hmf, hing, hf2,
            hsame, hlat]
        · exfalso
          apply hcall
          simp [run_single, compare_and_save, hf, h1, h2, hl, hch, hmf]

end WG

namespace WG

/-- C9 witness: a first-ever fetch at concrete sample collaborators (with two
different meaningfulness functions). -/
theorem c9_initial_fetch_witness :
    ((run_single wNormalize wHash wDiff (fun _ => false) wSummary wExtract wTitle
        wSourceId wIngestOk wSite wFetch (DB.mk [] 1) 0).1.is_meaningful = true ∧
      (run_single wNormalize wHash wDiff (fun _ => false) wSummary wExtract wTitle
        wSourceId wIngestOk wSite wFetch (DB.mk [] 1) 0).1.has_previous = false ∧
      (run_single wNormalize wHash wDiff (fun _ => false) wSummary wExtract wTitle
        wSourceId wIngestOk wSite wFetch (DB.mk [] 1) 0).2.2.map Payload.diff_text =
        ["+++ Initial fetch\n".toList ++ (wExtract wFetch.content).take 1000 ++
          "...".toList] ∧
      (run_single wNormalize wHash wDiff (fun _ => false) wSummary wExtract wTitle
        wSourceId wIngestOk wSite wFetch (DB.mk [] 1) 0).2.2.map Payload.previous_text =
        [[]]) ∧
    run_single wNormalize wHash wDiff (fun _ => false) wSummary wExtract wTitle
      wSourceId wIngestOk wSite wFetch (DB.mk [] 1) 0 =
    run_single wNormalize wHash wDiff (fun _ => true) wSummary wExtract wTitle
      wSourceId wIngestOk wSite wFetch (DB.mk [] 1) 0 :=
  c9_initial_fetch wNormalize wHash wDiff (fun _ => false) (fun _ => true) wSummary
    wExtract wTitle wSourceId wIngestOk wSite wFetch (DB.mk [] 1) 0
    rfl (by decide) (by decide) rfl

/-- C8 witness: first fetch with an always-failing ingest endpoint, then a
second run with identical extracted content. -/
theorem c8_ingest_failure_not_resent_witness :
    (run_single wNormalize wHash wDiff (fun _ => false) wSummary wExtract wTitle
        wSourceId wIngestFail wSite wFetch (DB.mk [] 1) 3).1.success = false ∧
    (run_single wNormalize wHash wDiff (fun _ => false) wSummary wExtract wTitle
        wSourceId wIngestFail wSite wFetch (DB.mk [] 1) 3).1.error =
      (wIngestFail (run_single wNormalize wHash wDiff (fun _ => false) wSummary
        wExtract wTitle wSourceId wIngestFail wSite wFetch (DB.mk [] 1) 3).2.2.headI).error ∧
    (get_latest_snapshot
        (run_single wNormalize wHash wDiff (fun _ => false) wSummary wExtract wTitle
          wSourceId wIngestFail wSite wFetch (DB.mk [] 1) 3).2.1
        wSite.url).map Row.content_hash =
      some (wHash (wNormalize (wExtract wFetch.content))) ∧
    (run_single wNormalize wHash wDiff (fun _ => false) wSummary wExtract wTitle
        wSourceId wIngestFail wSite wFetch
        (run_single wNormalize wHash wDiff (fun _ => false) wSummary wExtract wTitle
          wSourceId wIngestFail wSite wFetch (DB.mk [] 1) 3).2.1 4).1.is_changed = false ∧
    (run_single wNormalize wHash wDiff (fun _ => false) wSummary wExtract wTitle
        wSourceId wIngestFail wSite wFetch
        (run_single wNormalize wHash wDiff (fun _ => false) wSummary wExtract wTitle
          wSourceId wIngestFail wSite wFetch (DB.mk [] 1) 3).2.1 4).1.success = true ∧
    (run_single wNormalize wHash wDiff (fun _ => false) wSummary wExtract wTitle
        wSourceId wIngestFail wSite wFetch
        (run_single wNormalize wHash wDiff (fun _ => false) wSummary wExtract wTitle
          wSourceId wIngestFail wSite wFetch (DB.mk [] 1) 3).2.1 4).2.2 = [] ∧
    (run_single wNormalize wHash wDiff (fun _ => false) wSummary wExtract wTitle
        wSourceId wIngestFail wSite wFetch
        (run_single wNormalize wHash wDiff (fun _ => false) wSummary wExtract wTitle
          wSourceId wIngestFail wSite wFetch (DB.mk [] 1) 3).2.1 4).2.1 =
      (run_single wNormalize wHash wDiff (fun _ => false) wSummary wExtract wTitle
        wSourceId wIngestFail wSite wFetch (DB.mk [] 1) 3).2.1 :=
  c8_ingest_failure_not_resent wNormalize wHash wDiff (fun _ => false) wSummary
    wExtract wTitle wSourceId wIngestFail wSite wFetch wFetch (DB.mk [] 1) 3 4
    rfl (by decide) (by decide) rfl rfl (fun _ => rfl) (by simp) (by decide)

end WG

namespace WG

/-- C6, counterexample: with `keep_count = 0`, `LIMIT 0` yields an empty
keep-id list, so `cleanup_old_snapshots` returns without deleting anything —
a URL with one stored row still has 1 row afterwards, not
`min(1, 0) = 0`. -/
theorem c6_counterexample :
    get_snapshot_count
      (cleanup_old_snapshots (DB.mk [Row.mk 1 "u" "h" [] [] none 5] 2) "u" 0) "u" = 1 ∧
    min (get_snapshot_count (DB.mk [Row.mk 1 "u" "h" [] [] none 5] 2) "u") 0 = 0 := by
  decide

/-- `insertRow` produces a permutation of consing. -/
theorem insertRow_perm (r : Row) (l : List Row) :
    List.Perm (insertRow r l) (r :: l) := by
  induction l with
  | nil => exact List.Perm.refl _
  | cons x t ih =>
      unfold insertRow
      split
      · exact List.Perm.refl _
      · exact (ih.cons x).trans (List.Perm.swap r x t)

/-- `sortRows` permutes its input. -/
theorem sortRows_perm (l : List Row) : List.Perm (sortRows l) l := by
  induction l with
  | nil => exact List.Perm.refl _
  | cons r t ih => exact (insertRow_perm r (sortRows t)).trans (ih.cons r)

/-- Filtering a duplicate-free list by membership in a duplicate-free subset
recovers exactly that subset, up to permutation. -/
theorem filter_mem_perm (ks ls : List Nat) (d1 : ks.Nodup) (d2 : ls.Nodup)
    (hs : ks ⊆ ls) :
    List.Perm (ls.filter (fun x => ks.contains x)) ks := by
  refine (List.perm_ext_iff_of_nodup (d2.filter _) d1).mpr (fun a => ?_)
  simp only [List.mem_filter, List.elem_eq_mem, decide_eq_true_eq]
  exact ⟨fun h => h.2, fun h => ⟨hs h, h⟩⟩

/-- Mapping commutes with filtering by a predicate on the mapped value. -/
theorem map_filter_comp (f : Row → Nat) (P : Nat → Bool) (l : List Row) :
    (l.filter (fun x => P (f x))).map f = (l.map f).filter P := by
  induction l with
  | nil => rfl
  | cons c t ih => by_cases h : P (f c) <;> simp [h, ih]

end WG

namespace WG

/-- The URL's rows surviving a deletion by keep-ids are exactly the URL's rows
whose id is in the keep list. -/
theorem filtered_url_rows (rows : List Row) (url : String) (K : List Nat) :
    (rows.filter (fun r => !(r.url = url && !K.contains r.id))).filter
        (fun r => r.url = url) =
      (rows.filter (fun r => r.url = url)).filter (fun r => K.contains r.id) := by
  rw [List.filter_filter, List.filter_filter]
  apply List.filter_congr
  intro x _
  cases hx : decide (x.url = url) <;> cases hk : K.contains x.id <;> simp [hx, hk]

/-- `cleanup_old_snapshots`, unfolded. -/
theorem cleanup_eq (db : DB) (url : String) (keep : Nat) :
    cleanup_old_snapshots db url keep =
      (if ((sortRows (db.rows.filter (fun r => r.url = url))).take keep).map Row.id
          = [] then db
       else
        { rows := db.rows.filter (fun r =>
            !(r.url = url &&
              !(((sortRows (db.rows.filter (fun r2 => r2.url = url))).take keep).map
                  Row.id).contains r.id)),
          next_id := db.next_id }) := rfl

end WG

namespace WG

/-- C6 (amended): for every `keep_count ≥ 1` (and a well-formed store, i.e.
distinct row ids), `cleanup_old_snapshots(url, keep_count)` retains exactly
the `min(count, keep_count)` most recent rows for the URL — by `fetched_at`
descending, ties by ascending id — deletes the rest, and is idempotent.  For
`keep_count = 0` the function is a no-op (`LIMIT 0` selects no ids and the
code returns early), so nothing is deleted. -/
theorem c6_cleanup_retention (db : DB) (url : String) (keep : Nat)
    (hk : 1 ≤ keep) (hn : (db.rows.map Row.id).Nodup) :
    get_snapshot_count (cleanup_old_snapshots db url keep) url =
      min (get_snapshot_count db url) keep ∧
    List.Perm
      (((cleanup_old_snapshots db url keep).rows.filter
          (fun r => r.url = url)).map Row.id)
      (((sortRows (db.rows.filter (fun r => r.url = url))).take keep).map Row.id) ∧
    cleanup_old_snapshots (cleanup_old_snapshots db url keep) url keep =
      cleanup_old_snapshots db url keep := by
  set L := db.rows.filter (fun r => r.url = url) with hL
  set S := sortRows L with hS
  set K := (S.take keep).map Row.id with hK
  have hSL : List.Perm S L := sortRows_perm L
  have hLid : (L.map Row.id).Nodup := by
    have hsub : List.Sublist (L.map Row.id) (db.rows.map Row.id) :=
      (List.filter_sublist _).map _
    exact hn.sublist hsub
  have hSid : List.Perm (S.map Row.id) (L.map Row.id) := hSL.map _
  have hSidN : (S.map Row.id).Nodup := hSid.nodup_iff.mpr hLid
  have hKmt : K = (S.map Row.id).take keep := by rw [hK, List.map_take]
  have hKN : K.Nodup := by rw [hKmt]; exact hSidN.sublist (List.take_sublist _ _)
  have hKsub : K ⊆ L.map Row.id := by
    rw [hKmt]
    exact fun a ha => hSid.subset ((List.take_sublist _ _).subset ha)
  have hcount : get_snapshot_count db url = L.length := by
    rw [get_snapshot_count, ← hL]
  have hcleq := cleanup_eq db url keep
  rw [← hL, ← hS, ← hK] at hcleq
  by_cases hKe : K = []
  · -- `LIMIT keep` found nothing: no rows for the URL at all
    have h2 : S.take keep = [] := by
      apply List.map_eq_nil_iff.mp
      rw [← hK]
      exact hKe
    have hSe : S = [] := by
      rcases List.take_eq_nil_iff.mp h2 with h | h
      · omega
      · exact h
    have hLe : L = [] := (hSe ▸ hSL).symm.eq_nil
    rw [hcleq, if_pos hKe]
    refine ⟨?_, ?_, ?_⟩
    · rw [hcount, hLe]
      simp
    · rw [← hL, hLe]
      simp [hKe]
    · rw [hcleq, if_pos hKe]
  · rw [hcleq, if_neg hKe]
    set F := db.rows.filter
      (fun r => !(decide (r.url = url) && !K.contains r.id)) with hF
    have hurl : F.filter (fun r => decide (r.url = url)) =
        L.filter (fun r => K.contains r.id) := by
      rw [hF, filtered_url_rows db.rows url K, ← hL]
    have hmap2 : (L.filter (fun r => K.contains r.id)).map Row.id =
        (L.map Row.id).filter (fun x => K.contains x) :=
      map_filter_comp Row.id (fun n => K.contains n) L
    have hperm2 : List.Perm ((L.filter (fun r => K.contains r.id)).map Row.id) K := by
      rw [hmap2]
      exact filter_mem_perm K (L.map Row.id) hKN hLid hKsub
    have hKlen : K.length = min keep L.length := by
      rw [hKmt, List.length_take, List.length_map, hSL.length_eq]
    have hfl : (L.filter (fun r => K.contains r.id)).length = K.length := by
      have h := hperm2.length_eq
      rwa [List.length_map] at h
    refine ⟨?_, ?_, ?_⟩
    · show ((F.filter (fun r => decide (r.url = url))).length) = _
      rw [hurl, hfl, hKlen, hcount]
      omega
    · show List.Perm ((F.filter (fun r => decide (r.url = url))).map Row.id) K
      rw [hurl]
      exact hperm2
    · -- idempotence
      have hlen2 : (L.filter (fun r => K.contains r.id)).length ≤ keep := by
        rw [hfl, hKlen]
        omega
      have hS2len : (sortRows (L.filter (fun r => K.contains r.id))).length =
          (L.filter (fun r => K.contains r.id)).length :=
        (sortRows_perm _).length_eq
      have htake2 : (sortRows (L.filter (fun r => K.contains r.id))).take keep =
          sortRows (L.filter (fun r => K.contains r.id)) :=
        List.take_of_length_le (by rw [hS2len]; exact hlen2)
      have hK2perm : List.Perm
          ((sortRows (L.filter (fun r => K.contains r.id))).map Row.id) K :=
        (((sortRows_perm _).map Row.id)).trans hperm2
      have hK2ne : ((sortRows ((DB.mk F db.next_id).rows.filter
          (fun r => decide (r.url = url)))).take keep).map Row.id ≠ [] := by
        show ((sortRows (F.filter (fun r => decide (r.url = url)))).take keep).map
          Row.id ≠ []
        rw [hurl, htake2]
        intro hnil
        have h9 : List.Perm K [] := hnil ▸ hK2perm.symm
        exact hKe h9.eq_nil
      rw [cleanup_eq (DB.mk F db.next_id) url keep, if_neg hK2ne]
      show DB.mk (F.filter _) db.next_id = DB.mk F db.next_id
      congr 1
      apply List.filter_eq_self.mpr
      intro r hr
      by_cases hru : r.url = url
      · have hrin : r ∈ F.filter (fun r => decide (r.url = url)) :=
          List.mem_filter.mpr ⟨hr, by simp [hru]⟩
        rw [hurl] at hrin
        have hid : r.id ∈ (L.filter (fun r => K.contains r.id)).map Row.id :=
          List.mem_map.mpr ⟨r, hrin, rfl⟩
        have hidK : r.id ∈ K := hperm2.subset hid
        have hidK2 : r.id ∈ (sortRows (L.filter (fun r => K.contains r.id))).map Row.id :=
          hK2perm.symm.subset hidK
        show (!(decide (r.url = url) &&
          !((((sortRows ((DB.mk F db.next_id).rows.filter
              (fun r2 => decide (r2.url = url)))).take keep).map Row.id).contains
            r.id))) = true
        have hrw : (DB.mk F db.next_id).rows.filter (fun r2 => decide (r2.url = url)) =
            L.filter (fun r2 => K.contains r2.id) := hurl
        rw [hrw, htake2]
        simp
        right
        simpa using hidK2
      · simp [hru]

end WG

namespace WG

/-- C6 witness: a store with three rows for `"u"` and one for `"v"`,
cleaned with `keep_count = 2`. -/
theorem c6_cleanup_retention_witness :
    get_snapshot_count
        (cleanup_old_snapshots
          (DB.mk [Row.mk 1 "u" "h1" [] [] none 10, Row.mk 2 "u" "h2" [] [] none 20,
                  Row.mk 3 "u" "h3" [] [] none 30, Row.mk 4 "v" "h4" [] [] none 40] 5)
          "u" 2) "u" =
      min (get_snapshot_count
        (DB.mk [Row.mk 1 "u" "h1" [] [] none 10, Row.mk 2 "u" "h2" [] [] none 20,
                Row.mk 3 "u" "h3" [] [] none 30, Row.mk 4 "v" "h4" [] [] none 40] 5)
        "u") 2 ∧
    List.Perm
      (((cleanup_old_snapshots
          (DB.mk [Row.mk 1 "u" "h1" [] [] none 10, Row.mk 2 "u" "h2" [] [] none 20,
                  Row.mk 3 "u" "h3" [] [] none 30, Row.mk 4 "v" "h4" [] [] none 40] 5)
          "u" 2).rows.filter (fun r => r.url = "u")).map Row.id)
      (((sortRows
          ((DB.mk [Row.mk 1 "u" "h1" [] [] none 10, Row.mk 2 "u" "h2" [] [] none 20,
                   Row.mk 3 "u" "h3" [] [] none 30, Row.mk 4 "v" "h4" [] [] none 40]
            5).rows.filter (fun r => r.url = "u"))).take 2).map Row.id) ∧
    cleanup_old_snapshots
        (cleanup_old_snapshots
          (DB.mk [Row.mk 1 "u" "h1" [] [] none 10, Row.mk 2 "u" "h2" [] [] none 20,
                  Row.mk 3 "u" "h3" [] [] none 30, Row.mk 4 "v" "h4" [] [] none 40] 5)
          "u" 2) "u" 2 =
      cleanup_old_snapshots
        (DB.mk [Row.mk 1 "u" "h1" [] [] none 10, Row.mk 2 "u" "h2" [] [] none 20,
                Row.mk 3 "u" "h3" [] [] none 30, Row.mk 4 "v" "h4" [] [] none 40] 5)
        "u" 2 :=
  c6_cleanup_retention
    (DB.mk [Row.mk 1 "u" "h1" [] [] none 10, Row.mk 2 "u" "h2" [] [] none 20,
            Row.mk 3 "u" "h3" [] [] none 30, Row.mk 4 "v" "h4" [] [] none 40] 5)
    "u" 2 (by decide) (by decide)

end WG

namespace WG

theorem cv_ofNat (n : Nat) (h : n < 55296) : cv (Char.ofNat n) = n := by
  have hv : n.isValidChar := Or.inl h
  unfold cv Char.ofNat
  rw [dif_pos hv]
  simp [Char.ofNatAux, UInt32.toNat, BitVec.toNat_ofNatLt]

theorem pyLower_fix (d : Char)
    (h1 : ¬(65 ≤ cv d ∧ cv d ≤ 90))
    (h2 : ¬(0xC0 ≤ cv d ∧ cv d ≤ 0xDE ∧ cv d ≠ 0xD7)) :
    pyLower d = d := by
  unfold pyLower
  rw [if_neg h1, if_neg h2]

theorem cv_pyLower (c : Char) :
    cv (pyLower c) = cv c + 32 ∧
      ((65 ≤ cv c ∧ cv c ≤ 90) ∨ (0xC0 ≤ cv c ∧ cv c ≤ 0xDE ∧ cv c ≠ 0xD7)) ∨
    pyLower c = c ∧
      ¬(65 ≤ cv c ∧ cv c ≤ 90) ∧ ¬(0xC0 ≤ cv c ∧ cv c ≤ 0xDE ∧ cv c ≠ 0xD7) := by
  unfold pyLower
  split_ifs with h1 h2
  · exact Or.inl ⟨cv_ofNat _ (by omega), Or.inl h1⟩
  · exact Or.inl ⟨cv_ofNat _ (by omega), Or.inr h2⟩
  · exact Or.inr ⟨rfl, h1, h2⟩

theorem pyLower_ws (c : Char) : isWsPy (pyLower c) = isWsPy c := by
  rcases cv_pyLower c with ⟨hc, hr⟩ | ⟨hc, _⟩
  · unfold isWsPy
    rw [decide_eq_decide, hc]
    omega
  · rw [hc]

theorem pyLower_idem (c : Char) : pyLower (pyLower c) = pyLower c := by
  rcases cv_pyLower c with ⟨hc, hr⟩ | ⟨hc, _⟩
  · exact pyLower_fix _ (by omega) (by omega)
  · rw [hc, hc]

theorem pyLower_space : pyLower ' ' = ' ' := by decide

end WG

namespace WG

theorem collapseGo_space :
    ∀ (z : Str) (flag : Bool), ∀ c ∈ collapseGo flag z, isWsPy c = true → c = ' '
  | [], _, c, hc, _ => by simp [collapseGo] at hc
  | x :: s, flag, c, hc, hw => by
      unfold collapseGo at hc
      by_cases hx : isWsPy x = true
      · rw [if_pos hx] at hc
        cases flag with
        | true => exact collapseGo_space s true c hc hw
        | false =>
            simp at hc
            rcases hc with h | h
            · exact h
            · exact collapseGo_space s true c h hw
      · rw [if_neg hx] at hc
        rcases List.mem_cons.mp hc with h | h
        · subst h; exact absurd hw hx
        · exact collapseGo_space s false c h hw

theorem collapseGo_true_head :
    ∀ (z : Str) (c : Char), (collapseGo true z).head? = some c → isWsPy c = false
  | [], c, h => by simp [collapseGo] at h
  | x :: s, c, h => by
      unfold collapseGo at h
      by_cases hx : isWsPy x = true
      · rw [if_pos hx] at h
        exact collapseGo_true_head s c h
      · rw [if_neg hx] at h
        simp at h
        rw [← h]
        simpa using hx

theorem collapseGo_chain :
    ∀ (z : Str) (flag : Bool),
      List.Chain' (fun a b => ¬(isWsPy a = true ∧ isWsPy b = true)) (collapseGo flag z)
  | [], _ => by simp [collapseGo]
  | x :: s, flag => by
      unfold collapseGo
      by_cases hx : isWsPy x = true
      · rw [if_pos hx]
        cases flag with
        | true => exact collapseGo_chain s true
        | false =>
            simp only [Bool.false_eq_true, if_false]
            refine List.chain'_cons'.mpr ⟨?_, collapseGo_chain s true⟩
            intro y hy
            have := collapseGo_true_head s y hy
            simp [this]
      · rw [if_neg hx]
        refine List.chain'_cons'.mpr ⟨?_, collapseGo_chain s false⟩
        intro y _
        simp [hx]

theorem collapseWs_collapsed (z : Str) : Collapsed (collapseWs z) :=
  ⟨collapseGo_space z false, collapseGo_chain z false⟩

theorem Collapsed_tail {c : Char} {s : Str} (h : Collapsed (c :: s)) : Collapsed s :=
  ⟨fun d hd => h.1 d (List.mem_cons_of_mem c hd), (List.chain'_cons'.mp h.2).2⟩

theorem collapseWs_of_collapsed : ∀ (l : Str), Collapsed l → collapseWs l = l
  | [], _ => rfl
  | c :: s, h => by
      have htail := Collapsed_tail h
      by_cases hc : isWsPy c = true
      · have hsp : c = ' ' := h.1 c (List.mem_cons_self c s) hc
        show collapseGo false (c :: s) = c :: s
        unfold collapseGo
        rw [if_pos hc]
        have hts : collapseGo true s = s := by
          cases s with
          | nil => rfl
          | cons d t =>
              have hR := (List.chain'_cons'.mp h.2).1 d (by rfl)
              have hd : ¬ isWsPy d = true := fun hdw => hR ⟨hc, hdw⟩
              show collapseGo true (d :: t) = d :: t
              unfold collapseGo
              rw [if_neg hd]
              have := collapseWs_of_collapsed (d :: t) htail
              unfold collapseWs collapseGo at this
              rw [if_neg hd] at this
              exact this
        rw [hts, hsp]
        simp
      · show collapseGo false (c :: s) = c :: s
        unfold collapseGo
        rw [if_neg hc]
        exact congrArg (c :: ·) (collapseWs_of_collapsed s htail)

end WG

namespace WG

theorem head?_dropWhile (p : Char → Bool) :
    ∀ (m : Str) (c : Char), (List.dropWhile p m).head? = some c → p c = false
  | [], c, h => by simp at h
  | x :: t, c, h => by
      by_cases hx : p x = true
      · rw [List.dropWhile_cons_of_pos hx] at h
        exact head?_dropWhile p t c h
      · rw [List.dropWhile_cons_of_neg hx] at h
        simp at h
        rw [← h]
        simpa using hx

theorem getLast?_dropWhile (p : Char → Bool) :
    ∀ m : Str, List.dropWhile p m = [] ∨
      (List.dropWhile p m).getLast? = m.getLast?
  | [] => Or.inl rfl
  | x :: t => by
      by_cases hx : p x = true
      · rw [List.dropWhile_cons_of_pos hx]
        by_cases ht : List.dropWhile p t = []
        · exact Or.inl ht
        · right
          rcases getLast?_dropWhile p t with h | h
          · exact absurd h ht
          · rw [h]
            cases t with
            | nil => exact absurd rfl ht
            | cons d t2 => rw [List.getLast?_cons_cons]
      · rw [List.dropWhile_cons_of_neg hx]
        exact Or.inr rfl

theorem chain'_dropWhile {R : Char → Char → Prop} (p : Char → Bool) :
    ∀ m : Str, List.Chain' R m → List.Chain' R (m.dropWhile p)
  | [], h => h
  | x :: t, h => by
      by_cases hx : p x = true
      · rw [List.dropWhile_cons_of_pos hx]
        exact chain'_dropWhile p t (List.chain'_cons'.mp h).2
      · rw [List.dropWhile_cons_of_neg hx]
        exact h

theorem stripWs_eq_self (l : Str)
    (h1 : ∀ c, l.head? = some c → isWsPy c = false)
    (h2 : ∀ c, l.getLast? = some c → isWsPy c = false) :
    stripWs l = l := by
  unfold stripWs
  have hd : l.dropWhile isWsPy = l := by
    cases l with
    | nil => rfl
    | cons c t => exact List.dropWhile_cons_of_neg (by simp [h1 c rfl])
  rw [hd]
  have hr : l.reverse.dropWhile isWsPy = l.reverse := by
    cases hrv : l.reverse with
    | nil => rfl
    | cons c t =>
        have hc : l.getLast? = some c := by
          rw [← List.head?_reverse, hrv]
          rfl
        rw [← hrv]
        rw [hrv]
        exact List.dropWhile_cons_of_neg (by simp [h2 c hc])
  rw [hr, List.reverse_reverse]

theorem stripWs_head? (l : Str) (c : Char) (h : (stripWs l).head? = some c) :
    isWsPy c = false := by
  unfold stripWs at h
  rw [List.head?_reverse] at h
  rcases getLast?_dropWhile isWsPy ((l.dropWhile isWsPy).reverse) with he | he
  · rw [he] at h
    simp at h
  · rw [he, List.getLast?_reverse] at h
    exact head?_dropWhile isWsPy l c h

theorem stripWs_getLast? (l : Str) (c : Char) (h : (stripWs l).getLast? = some c) :
    isWsPy c = false := by
  unfold stripWs at h
  rw [List.getLast?_reverse] at h
  exact head?_dropWhile isWsPy _ c h

theorem stripWs_idem (l : Str) : stripWs (stripWs l) = stripWs l :=
  stripWs_eq_self _ (stripWs_head? l) (stripWs_getLast? l)

theorem Collapsed_strip (l : Str) (h : Collapsed l) : Collapsed (stripWs l) := by
  constructor
  · intro c hc hw
    apply h.1 c _ hw
    have h1 : c ∈ (l.dropWhile isWsPy).reverse.dropWhile isWsPy := by
      have := hc
      unfold stripWs at this
      exact List.mem_reverse.mp this
    have h2 : c ∈ l.dropWhile isWsPy := by
      have h3 := (List.dropWhile_sublist (p := isWsPy)
        (l := (l.dropWhile isWsPy).reverse)).subset h1
      exact List.mem_reverse.mp h3
    exact (List.dropWhile_sublist (p := isWsPy) (l := l)).subset h2
  · unfold stripWs
    have hsym : ∀ a b : Char,
        ¬(isWsPy a = true ∧ isWsPy b = true) →
        (flip (fun a b => ¬(isWsPy a = true ∧ isWsPy b = true))) a b :=
      fun _ _ hab hx => hab ⟨hx.2, hx.1⟩
    rw [List.chain'_reverse]
    apply List.Chain'.imp hsym
    apply chain'_dropWhile
    rw [List.chain'_reverse]
    apply List.Chain'.imp hsym
    apply chain'_dropWhile
    exact h.2

end WG

namespace WG

theorem lowerStr_idem (l : Str) : lowerStr (lowerStr l) = lowerStr l := by
  have hpf : (pyLower ∘ pyLower) = pyLower := funext pyLower_idem
  unfold lowerStr
  rw [List.map_map, hpf]

theorem Collapsed_lower (l : Str) (h : Collapsed l) : Collapsed (lowerStr l) := by
  constructor
  · intro c hc hw
    rcases List.mem_map.mp hc with ⟨d, hd, rfl⟩
    have hwd : isWsPy d = true := by rw [← pyLower_ws d]; exact hw
    rw [h.1 d hd hwd]
    exact pyLower_space
  · unfold lowerStr
    rw [List.chain'_map]
    apply List.Chain'.imp _ h.2
    intro a b hab hx
    exact hab ⟨by rw [← pyLower_ws a]; exact hx.1, by rw [← pyLower_ws b]; exact hx.2⟩

theorem stripWs_lower (l : Str) : stripWs (lowerStr l) = lowerStr (stripWs l) := by
  have hpf : (isWsPy ∘ pyLower) = isWsPy := funext pyLower_ws
  unfold stripWs lowerStr
  rw [List.dropWhile_map, hpf, ← List.map_reverse, List.dropWhile_map, hpf,
    ← List.map_reverse]

/-- C3 (amended): `normalize` is idempotent on every input `x` whose
normalised form is left unchanged by the noise-pattern pass (and by NFKC):
the whitespace-collapse, strip and lowercase steps are idempotent, so a second
application changes nothing unless a noise pattern matches again.  In general
idempotence fails (see the counterexample): removing noise can assemble new
noise. -/
theorem c3_normalize_conditional_idem (nfkc : Str → Str) (x : Str)
    (hn : nfkc (normalize nfkc x) = normalize nfkc x)
    (hp : noisePass (normalize nfkc x) = normalize nfkc x) :
    normalize nfkc (normalize nfkc x) = normalize nfkc x := by
  by_cases hx : x = []
  · rw [hx]
    simp [normalize]
  · set y := normalize nfkc x with hy
    have hyform : y = lowerStr (stripWs (collapseWs (noisePass (nfkc x)))) := by
      rw [hy]
      unfold normalize
      rw [if_neg hx]
    by_cases hye : y = []
    · rw [hye]
      simp [normalize]
    · unfold normalize
      rw [if_neg hye, hn, hp]
      set u := collapseWs (noisePass (nfkc x)) with hu
      have hyu : y = lowerStr (stripWs u) := hyform
      have hcolU : Collapsed u := collapseWs_collapsed _
      have hcolY : Collapsed y := by
        rw [hyu]
        exact Collapsed_lower _ (Collapsed_strip _ hcolU)
      rw [collapseWs_of_collapsed y hcolY]
      rw [hyu, stripWs_lower, stripWs_idem, lowerStr_idem]

end WG

namespace WG

/-- C3, counterexample: `normalize` is not idempotent.  On
`"12 de enero Visitas: 5 de 2020"` (ASCII, so NFKC is the identity) the first
pass removes the visit counter, leaving `"12 de enero de 2020"` — which the
second pass then matches as a Spanish date and erases entirely. -/
theorem c3_counterexample :
    normalize id "12 de enero Visitas: 5 de 2020".toList =
      "12 de enero de 2020".toList ∧
    normalize id (normalize id "12 de enero Visitas: 5 de 2020".toList) = [] ∧
    normalize id (normalize id "12 de enero Visitas: 5 de 2020".toList) ≠
      normalize id "12 de enero Visitas: 5 de 2020".toList := by
  refine ⟨by decide, by decide, by decide⟩

/-- C3 witness: on `"hello"` (no residual noise match, NFKC-stable) the
conditional idempotence theorem applies. -/
theorem c3_normalize_conditional_idem_witness :
    normalize id (normalize id "hello".toList) = normalize id "hello".toList :=
  c3_normalize_conditional_idem id "hello".toList rfl (by decide)

end WG
